import Mathlib

/-! usb-serial: a shallow embedding of `src/main.go`

The program is one Go function, `main`.  It resolves a serial port name (from the
`-port` flag, or interactively from the enumerated device list), opens the port,
writes the `-msg` text once, sleeps 500 ms and then polls the port for a reply.

Everything outside `main.go` is the *world*: the parsed flags, the device
enumerator, standard input, the library functions `strings.TrimSpace` and
`strconv.Atoi`, and the serial port (`Open`, `Write`, `Read`).  A run of `main` is a
pure function of the flags and the world; it yields the ordered list of observable
events and the exit status of the process.

Go semantics used by the embedding:
* a Go `string` is a sequence of bytes; `[]byte(s)` and `string(b)` copy the bytes;
* `log.Fatal` / `log.Fatalf` print the message and call `os.Exit(1)`;
  `os.Exit` ends the process at once, deferred calls are not run;
* returning from `main` runs the deferred calls, then the process exits with status 0.
-/

namespace UsbSerial

/-! ## Data model -/

abbrev Byte := Fin 256

/-- A Go `string`: an immutable sequence of bytes. -/
abbrev GoString := List Byte

/-- A Go `error` value: `none` is `nil`, `some e` is an error with text `e`. -/
abbrev GoError := Option GoString

/-- The fields of `enumerator.PortDetails` that `main` reads. -/
structure PortDetails where
  Name : GoString
  IsUSB : Bool
  VID : GoString
  PID : GoString
  SerialNumber : GoString
  Product : GoString
deriving DecidableEq, Repr

inductive Parity where
  | NoParity | OddParity | EvenParity | MarkParity | SpaceParity
deriving DecidableEq, Repr

inductive StopBits where
  | OneStopBit | OnePointFiveStopBits | TwoStopBits
deriving DecidableEq, Repr

/-- The `serial.Mode` value handed to `serial.Open`. -/
structure Mode where
  BaudRate : Int
  DataBits : Int
  Parity : Parity
  StopBits : StopBits
deriving DecidableEq, Repr

/-- The values of the three command-line flags after `flag.Parse()` (lines 20-32). -/
structure Config where
  port : GoString
  baud : Int
  msg : GoString
deriving DecidableEq, Repr

/-- Everything `main` obtains from outside `main.go`.
`Read i` is what the port delivers on the call number `i` (counted from 0) of
`port.Read`: the bytes it has available and the error it returns. -/
structure World where
  GetDetailedPortsList : List PortDetails × GoError
  ReadString : GoString
  TrimSpace : GoString → GoString
  Atoi : GoString → Int × GoError
  Open : GoString → Mode → GoError
  Write : List Byte → Int × GoError
  Read : Nat → List Byte × GoError

/-- One constructor for each message the program prints, in source order; the
arguments are the values substituted into the format string. -/
inductive Msg where
  | scanning
  | listError (err : GoString)
  | noPortsFound
  | listHeader
  | portLine (index : Int) (name : GoString)
  | usbInfo (vid pid serial product : GoString)
  | newline
  | prompt (count : Int)
  | notListed (name : GoString)
  | noPortChosen
  | chosenPort (name : GoString)
  | openError (name : GoString) (err : GoString)
  | opened (name : GoString) (baud : Int)
  | writeError (err : GoString)
  | sent (n : Int) (message : GoString)
  | waiting
  | readError (err : GoString)
  | received (numRead : Int) (data : GoString)
  | noData
  | finished
deriving DecidableEq, Repr

/-- The text or format string given to the print call of each message. -/
def Msg.format : Msg → String
  | .scanning => "Skanowanie dostępnych portów szeregowych...\n"
  | .listError _ => "Błąd podczas listowania portów: %v"
  | .noPortsFound =>
      "Nie znaleziono żadnych portów szeregowych! Upewnij się, że PMOD jest podłączony."
  | .listHeader => "\nDostępne porty szeregowe:\n"
  | .portLine _ _ => "%d. %s"
  | .usbInfo _ _ _ _ => " (USB VID:%s PID:%s Serial:%s Product:%s)"
  | .newline => "\n"
  | .prompt _ => "Wybierz numer portu (1-%d) lub wpisz nazwę portu ręcznie: "
  | .notListed _ =>
      "Ostrzeżenie: Podana nazwa portu '%s' nie znajduje się na liście wykrytych portów. Mimo to spróbuję otworzyć.\n"
  | .noPortChosen => "Nie wybrano portu. Program zostanie zakończony."
  | .chosenPort _ => "Wybrany port: %s\n"
  | .openError _ _ =>
      "Błąd podczas otwierania portu %s: %v\nUpewnij się, że nazwa portu jest poprawna i masz do niego uprawnienia."
  | .opened _ _ => "Pomyślnie otwarto port szeregowy %s z prędkością %d baud.\n"
  | .writeError _ => "Błąd podczas wysyłania danych: %v"
  | .sent _ _ => "Wysłano %d bajtów: \"%s\"\n"
  | .waiting => "Oczekiwanie na dane z PMOD (max 5 sekund)...\n"
  | .readError _ => "Błąd podczas odczytu danych: %v"
  | .received _ _ => "Odebrano %d bajtów: \"%s\"\n"
  | .noData => "Nie odebrano danych w określonym czasie.\n"
  | .finished => "Program zakończony.\n"

/-- Observable actions of a run, in program order. -/
inductive Event where
  | print (m : Msg)
  | logFatal (m : Msg)
  | enumerate
  | readLine
  | portOpen (name : GoString) (mode : Mode)
  | portWrite (p : List Byte)
  | portRead (len : Nat)
  | portClose
  | sleep (ms : Nat)
deriving DecidableEq, Repr

/-- How the body of `main` ends: by returning, or through `os.Exit`. -/
inductive Ending where
  | returned
  | osExit (code : Nat)
deriving DecidableEq, Repr

/-- The result of a run: the events in order and the exit status of the process. -/
structure Outcome where
  trace : List Event
  status : Nat
deriving DecidableEq, Repr

/-! ## The program -/

/-- The loop of lines 47-54: one line for each enumerated port, `i` is the loop index. -/
def listPorts : List PortDetails → Nat → List Event
  | [], _ => []
  | p :: rest, i =>
      [Event.print (.portLine (i + 1) p.Name)]
        ++ (if p.IsUSB then [Event.print (.usbInfo p.VID p.PID p.SerialNumber p.Product)] else [])
        ++ [Event.print .newline]
        ++ listPorts rest (i + 1)

/-- The search of lines 69-75: is some enumerated port named `chosenPortName`? -/
def found (ports : List PortDetails) (chosenPortName : GoString) : Bool :=
  ports.any (fun p => p.Name == chosenPortName)

/-- Lines 56-79: prompt, read one line, and turn it into a port name.  Returns the
events and the value of `chosenPortName` after line 79. -/
def selectPort (w : World) (ports : List PortDetails) : List Event × GoString :=
  let input := w.TrimSpace w.ReadString
  let selectedIndex := (w.Atoi input).1
  let err := (w.Atoi input).2
  if h : err = none ∧ selectedIndex ≥ 1 ∧ selectedIndex ≤ ports.length then
    ([Event.print (.prompt ports.length), Event.readLine],
      (ports.get ⟨(selectedIndex - 1).toNat, by omega⟩).Name)
  else
    let chosenPortName := input
    ([Event.print (.prompt ports.length), Event.readLine]
        ++ (if !found ports chosenPortName then [Event.print (.notListed chosenPortName)] else []),
      chosenPortName)

/-- Lines 30-84: the value of `chosenPortName` with which line 86 is reached, or
`none` when the process has ended in one of the `log.Fatal` calls. -/
def choosePort (cfg : Config) (w : World) : List Event × Option GoString :=
  let chosenPortName := cfg.port
  if chosenPortName = [] then
    let ports := w.GetDetailedPortsList.1
    match w.GetDetailedPortsList.2 with
    | some err =>
        ([Event.print .scanning, Event.enumerate, Event.logFatal (.listError err)], none)
    | none =>
        if ports.length = 0 then
          ([Event.print .scanning, Event.enumerate, Event.logFatal .noPortsFound], none)
        else
          let sel := selectPort w ports
          let t := [Event.print .scanning, Event.enumerate, Event.print .listHeader]
            ++ listPorts ports 0 ++ sel.1
          if sel.2 = [] then
            (t ++ [Event.logFatal .noPortChosen], none)
          else
            (t, some sel.2)
  else
    ([], some chosenPortName)

/-- Lines 89-94. -/
def modeOf (cfg : Config) : Mode :=
  { BaudRate := cfg.baud, DataBits := 8, Parity := .NoParity, StopBits := .OneStopBit }

/-- One call `port.Read(buff)`, the call number `call` on this port: the port copies
what it has (at most `len(buff)` bytes) to the front of `buff`.  Returns
`(numRead, err, buff)`. -/
def portRead (w : World) (call : Nat) (buff : List Byte) : Int × GoError × List Byte :=
  let got := (w.Read call).1.take buff.length
  ((got.length : Int), (w.Read call).2, got ++ buff.drop got.length)

def maxReadAttempts : Nat := 10

/-- Line 116, `make([]byte, 100)`: a buffer of 100 zero bytes. -/
def makeBuff : List Byte := List.replicate 100 0

/-- How the loop of lines 120-132 is left. -/
inductive LoopResult where
  | done (readAttempts : Nat)
  | fatal
deriving DecidableEq, Repr

/-- The loop of lines 120-132.  `calls` is the number of `Read` calls already made on
the port, `readAttempts` and `buff` are the program variables.  The first argument
bounds the number of iterations; `none` means the bound was too small. -/
def readLoop (w : World) : Nat → Nat → Nat → List Byte → Option (List Event × LoopResult)
  | 0, _, readAttempts, _ =>
      if readAttempts < maxReadAttempts then none else some ([], .done readAttempts)
  | fuel + 1, calls, readAttempts, buff =>
      if readAttempts < maxReadAttempts then
        let r := portRead w calls buff
        let numRead := r.1
        match r.2.1 with
        | some err =>
            some ([Event.portRead buff.length, Event.logFatal (.readError err)], .fatal)
        | none =>
            if numRead > 0 then
              let receivedData := r.2.2.take numRead.toNat
              some ([Event.portRead buff.length, Event.print (.received numRead receivedData)],
                .done readAttempts)
            else
              (readLoop w fuel (calls + 1) (readAttempts + 1) r.2.2).map
                (fun rest => (Event.portRead buff.length :: Event.sleep 500 :: rest.1, rest.2))
      else some ([], .done readAttempts)

/-- Lines 102-138, the part of `main` that runs after `defer port.Close()` has been
registered. -/
def session (cfg : Config) (w : World) (chosenPortName : GoString) :
    Option (List Event × Ending) :=
  let message := cfg.msg
  let t1 := [Event.print (.opened chosenPortName cfg.baud), Event.portWrite message]
  let n := (w.Write message).1
  match (w.Write message).2 with
  | some err => some (t1 ++ [Event.logFatal (.writeError err)], .osExit 1)
  | none =>
      let t2 := t1 ++ [Event.print (.sent n message), Event.sleep 500, Event.print .waiting]
      let buff := makeBuff
      match readLoop w maxReadAttempts 0 0 buff with
      | none => none
      | some (t3, .fatal) => some (t2 ++ t3, .osExit 1)
      | some (t3, .done readAttempts) =>
          some (t2 ++ t3
              ++ (if readAttempts = maxReadAttempts then [Event.print .noData] else [])
              ++ [Event.print .finished],
            .returned)

/-- The whole of `main`.  The deferred `port.Close()` runs when the body returns and
does not run when the body ends in `os.Exit`. -/
def main (cfg : Config) (w : World) : Option Outcome :=
  match choosePort cfg w with
  | (t0, none) => some ⟨t0, 1⟩
  | (t0, some chosenPortName) =>
      let t1 := t0 ++ [Event.print (.chosenPort chosenPortName),
        Event.portOpen chosenPortName (modeOf cfg)]
      match w.Open chosenPortName (modeOf cfg) with
      | some err => some ⟨t1 ++ [Event.logFatal (.openError chosenPortName err)], 1⟩
      | none =>
          match session cfg w chosenPortName with
          | none => none
          | some (t2, .returned) => some ⟨t1 ++ t2 ++ [Event.portClose], 0⟩
          | some (t2, .osExit code) => some ⟨t1 ++ t2, code⟩

/-! ## Observations on a trace -/

def Event.isRead : Event → Bool
  | .portRead _ => true
  | _ => false

def Event.isWrite : Event → Bool
  | .portWrite _ => true
  | _ => false

def Event.isClose : Event → Bool
  | .portClose => true
  | _ => false

def Event.isFatal : Event → Bool
  | .logFatal _ => true
  | _ => false

/-- The two results of the read phase: the received-data line and the no-data line. -/
def Event.isReport : Event → Bool
  | .print (.received _ _) => true
  | .print .noData => true
  | _ => false

/-- Is the event the warning of line 77? -/
def Event.isWarning : Event → Bool
  | .print (.notListed _) => true
  | _ => false

/-- The duration of a pause in milliseconds, 0 for every other event. -/
def Event.pause : Event → Nat
  | .sleep ms => ms
  | _ => 0

/-- Is the event the line reporting the number of bytes written (line 109)? -/
def Event.isSent : Event → Bool
  | .print (.sent _ _) => true
  | _ => false

/-- The events of the port-selection stage (lines 35-84) other than its fatal
messages: its prints, the enumeration and the read from standard input. -/
def Event.isSelection : Event → Bool
  | .print .scanning => true
  | .print .listHeader => true
  | .print (.portLine _ _) => true
  | .print (.usbInfo _ _ _ _) => true
  | .print .newline => true
  | .print (.prompt _) => true
  | .print (.notListed _) => true
  | .enumerate => true
  | .readLine => true
  | _ => false

/-- Number of `port.Read` calls in a trace. -/
def reads (t : List Event) : Nat := t.countP Event.isRead

/-- Number of `port.Close` calls in a trace. -/
def closes (t : List Event) : Nat := t.countP Event.isClose

/-- Total time slept in a trace, in milliseconds. -/
def sleepTotal (t : List Event) : Nat := (t.map Event.pause).sum

/-- The name given to `serial.Open`, for an open event. -/
def Event.openName : Event → Option GoString
  | .portOpen name _ => some name
  | _ => none

/-- The names given to `serial.Open` in a trace, in order. -/
def openedNames (t : List Event) : List GoString := t.filterMap Event.openName

/-- The trace of `m` read attempts that each find nothing: a read into the 100-byte
buffer followed by a 500 ms pause. -/
def idle : Nat → List Event
  | 0 => []
  | m + 1 => Event.portRead 100 :: Event.sleep 500 :: idle m

/-- The events of lines 86-115 when the open and the write succeed. -/
def opening (cfg : Config) (w : World) (name : GoString) : List Event :=
  [Event.print (.chosenPort name), Event.portOpen name (modeOf cfg),
   Event.print (.opened name cfg.baud), Event.portWrite cfg.msg,
   Event.print (.sent (w.Write cfg.msg).1 cfg.msg), Event.sleep 500, Event.print .waiting]

/-- The five courses a run can take once `serial.Open` has been called with `name`:
the open fails; the write fails; all ten reads find nothing; a read receives data;
a read fails.  `tail` is the trace after the open event, `status` the exit status. -/
def afterOpen (cfg : Config) (w : World) (name : GoString) (tail : List Event)
    (status : Nat) : Prop :=
  (∃ err, tail = [Event.logFatal (.openError name err)] ∧ status = 1) ∨
  (∃ err, tail = [Event.print (.opened name cfg.baud), Event.portWrite cfg.msg,
      Event.logFatal (.writeError err)] ∧ status = 1) ∨
  (tail = (opening cfg w name).drop 2 ++ idle 10 ++
      [Event.print .noData, Event.print .finished, Event.portClose] ∧ status = 0) ∨
  (∃ m n data, m < 10 ∧ tail = (opening cfg w name).drop 2 ++ idle m ++
      [Event.portRead 100, Event.print (.received n data), Event.print .finished,
        Event.portClose] ∧ status = 0) ∨
  (∃ m err, m < 10 ∧ tail = (opening cfg w name).drop 2 ++ idle m ++
      [Event.portRead 100, Event.logFatal (.readError err)] ∧ status = 1)

/-! ## Sample worlds

Concrete library functions and ports, used to run the program on explicit inputs. -/

/-- The white space of `strings.TrimSpace` below `0x80`: tab, line feed, vertical tab,
form feed, carriage return, space. -/
def asciiSpace (c : Byte) : Bool :=
  c = 9 || c = 10 || c = 11 || c = 12 || c = 13 || c = 32

/-- What `strings.TrimSpace` does on a string all of whose bytes are below `0x80`. -/
def trimSpaceASCII (s : GoString) : GoString :=
  ((s.dropWhile asciiSpace).reverse.dropWhile asciiSpace).reverse

/-- The value of a string of decimal digits, `none` if a byte is no digit. -/
def digitsValue : List Byte → Nat → Option Nat
  | [], acc => some acc
  | c :: rest, acc =>
      if 48 ≤ c.val ∧ c.val ≤ 57 then digitsValue rest (acc * 10 + (c.val - 48)) else none

/-- What `strconv.Atoi` does with 64-bit `int`: an optional sign, then one or more
decimal digits; a syntax error gives value 0, a value out of range is clamped and
reported as an error.  The text of the error is left empty. -/
def atoiDecimal (s : GoString) : Int × GoError :=
  let neg := s.head? = some 45
  let body := if s.head? = some 45 ∨ s.head? = some 43 then s.tail else s
  if body = [] then (0, some [])
  else
    match digitsValue body 0 with
    | none => (0, some [])
    | some v =>
        if neg then
          if v ≤ 2 ^ 63 then (-(v : Int), none) else (-(2 ^ 63 : Int), some [])
        else
          if v < 2 ^ 63 then ((v : Int), none) else ((2 ^ 63 - 1 : Int), some [])

/-- A port that accepts every write in full. -/
def writeAll (p : List Byte) : Int × GoError := ((p.length : Int), none)

/-- A port that never has anything to read. -/
def readNothing (_ : Nat) : List Byte × GoError := ([], none)

/-- A world with the library functions above: `ports` are enumerated without error,
`line` is the line read from standard input, every `Open` succeeds. -/
def sampleWorld (ports : List PortDetails) (line : GoString)
    (write : List Byte → Int × GoError) (read : Nat → List Byte × GoError) : World :=
  { GetDetailedPortsList := (ports, none)
    ReadString := line
    TrimSpace := trimSpaceASCII
    Atoi := atoiDecimal
    Open := fun _ _ => none
    Write := write
    Read := read }

/-- A device without USB metadata. -/
def plainPort (name : GoString) : PortDetails :=
  { Name := name, IsUSB := false, VID := [], PID := [], SerialNumber := [], Product := [] }

/-- The flags `-port=A -baud=9600 -msg=ABC`. -/
def cfgABC : Config := { port := [65], baud := 9600, msg := [65, 66, 67] }

/-- The flags `-baud=9600 -msg=ABC` with no `-port`: the port is chosen interactively. -/
def cfgAsk : Config := { port := [], baud := 9600, msg := [65, 66, 67] }

/-! ## Lemmas on `port.Read` and the polling loop -/

theorem makeBuff_length : makeBuff.length = 100 := by
  simp [makeBuff]

theorem portRead_length (w : World) (c : Nat) (buff : List Byte) :
    (portRead w c buff).2.2.length = buff.length := by
  simp [portRead]

theorem portRead_nothing (w : World) (c : Nat) (buff : List Byte)
    (h : w.Read c = ([], none)) : portRead w c buff = (0, none, buff) := by
  simp [portRead, h]

theorem portRead_data (w : World) (c : Nat) (buff data : List Byte)
    (h : w.Read c = (data, none)) (hlen : data.length ≤ buff.length) :
    portRead w c buff = ((data.length : Int), none, data ++ buff.drop data.length) := by
  simp [portRead, h, List.take_of_length_le hlen]

theorem readLoop_exit (w : World) (fuel calls : Nat) (buff : List Byte) :
    readLoop w fuel calls maxReadAttempts buff = some ([], .done maxReadAttempts) := by
  cases fuel <;> simp [readLoop]

theorem readLoop_data (w : World) (fuel calls ra : Nat) (buff data : List Byte)
    (hra : ra < maxReadAttempts) (hbuff : buff.length = 100)
    (h : w.Read calls = (data, none)) (h1 : 1 ≤ data.length) (h100 : data.length ≤ 100) :
    readLoop w (fuel + 1) calls ra buff =
      some ([Event.portRead 100, Event.print (.received data.length data)], .done ra) := by
  have hp := portRead_data w calls buff data h (by omega)
  have hpos : (0 : Int) < (data.length : Int) := by omega
  simp [readLoop, hra, hp, hbuff, hpos]

theorem readLoop_error (w : World) (fuel calls ra : Nat) (buff : List Byte) (err : GoString)
    (hra : ra < maxReadAttempts) (hbuff : buff.length = 100)
    (h : (w.Read calls).2 = some err) :
    readLoop w (fuel + 1) calls ra buff =
      some ([Event.portRead 100, Event.logFatal (.readError err)], .fatal) := by
  have hp : (portRead w calls buff).2.1 = some err := by simp [portRead, h]
  simp [readLoop, hra, hp, hbuff]

theorem readLoop_idle (w : World) (m : Nat) : ∀ (fuel calls ra : Nat) (buff : List Byte),
    buff.length = 100 → ra + m ≤ maxReadAttempts →
    (∀ j, j < m → w.Read (calls + j) = ([], none)) →
    readLoop w (m + fuel) calls ra buff =
      (readLoop w fuel (calls + m) (ra + m) buff).map (fun r => (idle m ++ r.1, r.2)) := by
  induction m with
  | zero => intro fuel calls ra buff _ _ _; simp [idle]
  | succ m ih =>
      intro fuel calls ra buff hbuff hra hz
      have hlt : ra < maxReadAttempts := by omega
      have h0 : portRead w calls buff = (0, none, buff) :=
        portRead_nothing w calls buff (by simpa using hz 0 (by omega))
      have hstep : m + 1 + fuel = (m + fuel) + 1 := by omega
      rw [hstep]
      simp only [readLoop, hlt, if_true, h0]
      rw [ih fuel (calls + 1) (ra + 1) buff hbuff (by omega)
        (fun j hj => by have := hz (j + 1) (by omega); rwa [Nat.add_assoc, Nat.add_comm 1 j])]
      have e1 : calls + 1 + m = calls + (m + 1) := by omega
      have e2 : ra + 1 + m = ra + (m + 1) := by omega
      rw [e1, e2]
      cases readLoop w fuel (calls + (m + 1)) (ra + (m + 1)) buff <;> simp [idle, hbuff]

theorem readLoop_total (w : World) : ∀ (fuel calls ra : Nat) (buff : List Byte),
    maxReadAttempts ≤ fuel + ra → (readLoop w fuel calls ra buff).isSome = true := by
  intro fuel
  induction fuel with
  | zero =>
      intro calls ra buff h
      have : ¬ ra < maxReadAttempts := by omega
      simp [readLoop, this]
  | succ fuel ih =>
      intro calls ra buff h
      by_cases hlt : ra < maxReadAttempts
      · simp only [readLoop, hlt, if_true]
        cases hE : (portRead w calls buff).2.1 with
        | some err => simp
        | none =>
            by_cases hpos : (portRead w calls buff).1 > 0
            · simp [hpos]
            · simp only [hpos, if_false, Option.isSome_map']
              exact ih _ _ _ (by omega)
      · simp [readLoop, hlt]

/-- The three ways the loop can go: every attempt finds nothing, some attempt
receives data, or some attempt fails. -/
theorem readLoop_shape (w : World) : ∀ (fuel calls ra : Nat) (buff : List Byte)
    (t : List Event) (res : LoopResult),
    buff.length = 100 → ra ≤ maxReadAttempts →
    readLoop w fuel calls ra buff = some (t, res) →
    (res = .done maxReadAttempts ∧ t = idle (maxReadAttempts - ra)) ∨
    (∃ m n data, ra + m < maxReadAttempts ∧ res = .done (ra + m) ∧
      t = idle m ++ [Event.portRead 100, Event.print (.received n data)]) ∨
    (∃ m err, ra + m < maxReadAttempts ∧ res = .fatal ∧
      t = idle m ++ [Event.portRead 100, Event.logFatal (.readError err)]) := by
  intro fuel
  induction fuel with
  | zero =>
      intro calls ra buff t res _ hra h
      by_cases hlt : ra < maxReadAttempts
      · simp [readLoop, hlt] at h
      · have hEq : ra = maxReadAttempts := by omega
        simp [readLoop, hlt] at h
        left
        simp [← h.1, ← h.2, hEq, idle]
  | succ fuel ih =>
      intro calls ra buff t res hbuff hra h
      by_cases hlt : ra < maxReadAttempts
      · simp only [readLoop, hlt, if_true] at h
        cases hE : (portRead w calls buff).2.1 with
        | some err =>
            simp only [hE, Option.some.injEq, Prod.mk.injEq] at h
            right; right
            exact ⟨0, err, by omega, h.2.symm, by simp [← h.1, idle, hbuff]⟩
        | none =>
            simp only [hE] at h
            by_cases hpos : (portRead w calls buff).1 > 0
            · simp only [hpos, if_true, Option.some.injEq, Prod.mk.injEq] at h
              right; left
              exact ⟨0, (portRead w calls buff).1,
                List.take (portRead w calls buff).1.toNat (portRead w calls buff).2.2,
                by omega, h.2.symm, by simp [← h.1, idle, hbuff]⟩
            · simp only [hpos, if_false, Option.map_eq_some', Prod.mk.injEq] at h
              obtain ⟨⟨t1, res1⟩, hrec, ht, hres⟩ := h
              simp only at ht hres
              have hlen := portRead_length w calls buff
              rcases ih _ _ _ t1 res1 (by rw [hlen, hbuff]) (by omega) hrec with
                ⟨h1, h2⟩ | ⟨m, n, data, h1, h2, h3⟩ | ⟨m, err, h1, h2, h3⟩
              · left
                refine ⟨by rw [← hres, h1], ?_⟩
                have : maxReadAttempts - ra = (maxReadAttempts - (ra + 1)) + 1 := by omega
                rw [← ht, h2, this, hbuff]
                rfl
              · right; left
                refine ⟨m + 1, n, data, by omega, ?_, ?_⟩
                · rw [← hres, h2]; congr 1; omega
                · rw [← ht, h3, hbuff]; rfl
              · right; right
                refine ⟨m + 1, err, by omega, by rw [← hres, h2], ?_⟩
                rw [← ht, h3, hbuff]; rfl
      · have hEq : ra = maxReadAttempts := by omega
        simp [readLoop, hlt] at h
        left
        simp [← h.1, ← h.2, hEq, idle]

/-! ## Lemmas on the port-selection stage -/

theorem listPorts_selection : ∀ (ports : List PortDetails) (i : Nat),
    ∀ e ∈ listPorts ports i, e.isSelection = true := by
  intro ports
  induction ports with
  | nil => intro i e he; simp [listPorts] at he
  | cons p rest ih =>
      intro i e he
      simp only [listPorts, List.mem_append, List.mem_singleton] at he
      rcases he with ((he | he) | he) | he
      · subst he; rfl
      · by_cases hu : p.IsUSB = true
        · simp [hu] at he; subst he; rfl
        · simp [hu] at he
      · subst he; rfl
      · exact ih _ e he

theorem selectPort_index (w : World) (ports : List PortDetails)
    (h : (w.Atoi (w.TrimSpace w.ReadString)).2 = none ∧
      (w.Atoi (w.TrimSpace w.ReadString)).1 ≥ 1 ∧
      (w.Atoi (w.TrimSpace w.ReadString)).1 ≤ ports.length) :
    selectPort w ports = ([Event.print (.prompt ports.length), Event.readLine],
      (ports.get ⟨((w.Atoi (w.TrimSpace w.ReadString)).1 - 1).toNat, by omega⟩).Name) := by
  unfold selectPort
  simp only
  rw [dif_pos h]

theorem selectPort_literal (w : World) (ports : List PortDetails)
    (h : ¬ ((w.Atoi (w.TrimSpace w.ReadString)).2 = none ∧
      (w.Atoi (w.TrimSpace w.ReadString)).1 ≥ 1 ∧
      (w.Atoi (w.TrimSpace w.ReadString)).1 ≤ ports.length)) :
    selectPort w ports = ([Event.print (.prompt ports.length), Event.readLine]
      ++ (if !found ports (w.TrimSpace w.ReadString)
          then [Event.print (.notListed (w.TrimSpace w.ReadString))] else []),
      w.TrimSpace w.ReadString) := by
  unfold selectPort
  simp only
  rw [dif_neg h]

theorem selectPort_selection (w : World) (ports : List PortDetails) :
    ∀ e ∈ (selectPort w ports).1, e.isSelection = true := by
  intro e he
  unfold selectPort at he
  simp only at he
  split at he
  · simp at he
    rcases he with he | he <;> subst he <;> rfl
  · by_cases hf : found ports (w.TrimSpace w.ReadString) = true
    · simp [hf] at he
      rcases he with he | he <;> subst he <;> rfl
    · simp [hf] at he
      rcases he with he | he | he <;> subst he <;> rfl

theorem choosePort_front (w : World) :
    ∀ e ∈ [Event.print .scanning, Event.enumerate, Event.print .listHeader]
      ++ listPorts w.GetDetailedPortsList.1 0 ++ (selectPort w w.GetDetailedPortsList.1).1,
      e.isSelection = true := by
  intro e he
  simp only [List.mem_append, List.mem_cons, List.mem_singleton] at he
  rcases he with ((he | he | he | he) | he) | he
  · subst he; rfl
  · subst he; rfl
  · subst he; rfl
  · simp at he
  · exact listPorts_selection _ _ e he
  · exact selectPort_selection _ _ e he

/-- A selection stage that yields a name has printed no fatal message, and the name
is not empty. -/
theorem choosePort_some (cfg : Config) (w : World) (t0 : List Event) (name : GoString)
    (h : choosePort cfg w = (t0, some name)) :
    name ≠ [] ∧ ∀ e ∈ t0, e.isSelection = true := by
  unfold choosePort at h
  simp only at h
  split at h
  · split at h
    · simp at h
    · split at h
      · simp at h
      · split at h
        · simp at h
        · rename_i hne
          simp only [Prod.mk.injEq, Option.some.injEq] at h
          refine ⟨by rw [← h.2]; exact hne, ?_⟩
          rw [← h.1]
          exact choosePort_front w
  · rename_i hne
    simp only [Prod.mk.injEq, Option.some.injEq] at h
    refine ⟨by rw [← h.2]; exact hne, ?_⟩
    rw [← h.1]
    simp

/-- A selection stage that yields no name has ended in one `log.Fatal` call. -/
theorem choosePort_none (cfg : Config) (w : World) (t0 : List Event)
    (h : choosePort cfg w = (t0, none)) :
    ∃ pre m, t0 = pre ++ [Event.logFatal m] ∧ ∀ e ∈ pre, e.isSelection = true := by
  unfold choosePort at h
  simp only at h
  split at h
  · split at h
    · rename_i err _
      refine ⟨[Event.print .scanning, Event.enumerate], .listError err, ?_, ?_⟩
      · simp only [Prod.mk.injEq] at h; rw [← h.1]; rfl
      · intro e he
        simp at he
        rcases he with he | he <;> subst he <;> rfl
    · split at h
      · refine ⟨[Event.print .scanning, Event.enumerate], .noPortsFound, ?_, ?_⟩
        · simp only [Prod.mk.injEq] at h; rw [← h.1]; rfl
        · intro e he
          simp at he
          rcases he with he | he <;> subst he <;> rfl
      · split at h
        · simp only [Prod.mk.injEq] at h
          exact ⟨_, .noPortChosen, h.1.symm, choosePort_front w⟩
        · simp at h
  · simp at h

theorem reads_selection (t : List Event) (h : ∀ e ∈ t, e.isSelection = true) : reads t = 0 := by
  unfold reads
  rw [List.countP_eq_zero]
  intro e he
  have := h e he
  cases e <;> simp_all [Event.isSelection, Event.isRead]

theorem closes_selection (t : List Event) (h : ∀ e ∈ t, e.isSelection = true) :
    closes t = 0 := by
  unfold closes
  rw [List.countP_eq_zero]
  intro e he
  have := h e he
  cases e <;> simp_all [Event.isSelection, Event.isClose]

theorem sleepTotal_selection (t : List Event) (h : ∀ e ∈ t, e.isSelection = true) :
    sleepTotal t = 0 := by
  induction t with
  | nil => rfl
  | cons e t ih =>
      have he := h e (by simp)
      have ht := ih (fun x hx => h x (by simp [hx]))
      unfold sleepTotal at ht ⊢
      cases e <;> simp_all [Event.isSelection, Event.pause]

theorem openedNames_selection (t : List Event) (h : ∀ e ∈ t, e.isSelection = true) :
    openedNames t = [] := by
  induction t with
  | nil => rfl
  | cons e t ih =>
      have he := h e (by simp)
      have ht := ih (fun x hx => h x (by simp [hx]))
      unfold openedNames at ht ⊢
      cases e <;> simp_all [Event.isSelection, Event.openName]

theorem filter_selection (p : Event → Bool) (hp : ∀ e, e.isSelection = true → p e = false)
    (t : List Event) (h : ∀ e ∈ t, e.isSelection = true) : t.filter p = [] := by
  rw [List.filter_eq_nil_iff]
  intro e he
  simp [hp e (h e he)]

theorem isReport_selection (e : Event) (h : e.isSelection = true) : e.isReport = false := by
  cases e with
  | print m => cases m <;> simp_all [Event.isSelection, Event.isReport]
  | _ => rfl

theorem isFatal_selection (e : Event) (h : e.isSelection = true) : e.isFatal = false := by
  cases e <;> simp_all [Event.isSelection, Event.isFatal]

/-! ## Lemmas on `idle` -/

theorem reads_idle (m : Nat) : reads (idle m) = m := by
  induction m with
  | zero => rfl
  | succ m ih =>
      unfold reads at ih ⊢
      simp [idle, Event.isRead, ih]

theorem sleepTotal_idle (m : Nat) : sleepTotal (idle m) = 500 * m := by
  induction m with
  | zero => rfl
  | succ m ih =>
      unfold sleepTotal at ih ⊢
      simp [idle, Event.pause, ih]
      omega

theorem filter_idle (p : Event → Bool) (h1 : p (Event.portRead 100) = false)
    (h2 : p (Event.sleep 500) = false) (m : Nat) : (idle m).filter p = [] := by
  induction m with
  | zero => rfl
  | succ m ih => simp [idle, h1, h2, ih]

theorem closes_idle (m : Nat) : closes (idle m) = 0 := by
  induction m with
  | zero => rfl
  | succ m ih =>
      unfold closes at ih ⊢
      simp [idle, Event.isClose, ih]

/-! ## Lemmas on `main` -/

theorem main_noPort (cfg : Config) (w : World) (t0 : List Event)
    (h : choosePort cfg w = (t0, none)) : main cfg w = some ⟨t0, 1⟩ := by
  simp [main, h]

theorem main_openFails (cfg : Config) (w : World) (t0 : List Event) (name err : GoString)
    (h : choosePort cfg w = (t0, some name)) (ho : w.Open name (modeOf cfg) = some err) :
    main cfg w = some ⟨t0 ++ [Event.print (.chosenPort name), Event.portOpen name (modeOf cfg),
      Event.logFatal (.openError name err)], 1⟩ := by
  simp [main, h, ho]

theorem main_writeFails (cfg : Config) (w : World) (t0 : List Event) (name err : GoString)
    (h : choosePort cfg w = (t0, some name)) (ho : w.Open name (modeOf cfg) = none)
    (hw : (w.Write cfg.msg).2 = some err) :
    main cfg w = some ⟨t0 ++ [Event.print (.chosenPort name), Event.portOpen name (modeOf cfg),
      Event.print (.opened name cfg.baud), Event.portWrite cfg.msg,
      Event.logFatal (.writeError err)], 1⟩ := by
  simp [main, h, ho, session, hw]

theorem main_loopFatal (cfg : Config) (w : World) (t0 t3 : List Event) (name : GoString)
    (h : choosePort cfg w = (t0, some name)) (ho : w.Open name (modeOf cfg) = none)
    (hw : (w.Write cfg.msg).2 = none)
    (hl : readLoop w maxReadAttempts 0 0 makeBuff = some (t3, .fatal)) :
    main cfg w = some ⟨t0 ++ opening cfg w name ++ t3, 1⟩ := by
  simp [main, h, ho, session, hw, hl, opening]

theorem main_loopDone (cfg : Config) (w : World) (t0 t3 : List Event) (name : GoString)
    (ra : Nat)
    (h : choosePort cfg w = (t0, some name)) (ho : w.Open name (modeOf cfg) = none)
    (hw : (w.Write cfg.msg).2 = none)
    (hl : readLoop w maxReadAttempts 0 0 makeBuff = some (t3, .done ra)) :
    main cfg w = some ⟨t0 ++ opening cfg w name ++ t3
      ++ (if ra = maxReadAttempts then [Event.print .noData] else [])
      ++ [Event.print .finished, Event.portClose], 0⟩ := by
  simp [main, h, ho, session, hw, hl, opening]

/-- Every run ends, and it ends in one of six ways: in the selection stage, or in one
of the five courses after the open. -/
theorem main_cases (cfg : Config) (w : World) :
    (∃ pre m, choosePort cfg w = (pre ++ [Event.logFatal m], none) ∧
      (∀ e ∈ pre, e.isSelection = true) ∧
      main cfg w = some ⟨pre ++ [Event.logFatal m], 1⟩) ∨
    (∃ t0 name tail status, choosePort cfg w = (t0, some name) ∧ name ≠ [] ∧
      (∀ e ∈ t0, e.isSelection = true) ∧ afterOpen cfg w name tail status ∧
      main cfg w = some ⟨t0 ++ Event.print (.chosenPort name)
        :: Event.portOpen name (modeOf cfg) :: tail, status⟩) := by
  rcases hc : choosePort cfg w with ⟨t0, _ | name⟩
  · left
    obtain ⟨pre, m, ht, hsel⟩ := choosePort_none cfg w t0 hc
    exact ⟨pre, m, by rw [ht], hsel, by rw [main_noPort cfg w t0 hc, ht]⟩
  · right
    obtain ⟨hne, hsel⟩ := choosePort_some cfg w t0 name hc
    refine ⟨t0, name, ?_⟩
    cases ho : w.Open name (modeOf cfg) with
    | some err =>
        exact ⟨_, 1, rfl, hne, hsel, Or.inl ⟨err, rfl, rfl⟩,
          main_openFails cfg w t0 name err hc ho⟩
    | none =>
        cases hw : (w.Write cfg.msg).2 with
        | some err =>
            exact ⟨_, 1, rfl, hne, hsel, Or.inr (Or.inl ⟨err, rfl, rfl⟩),
              main_writeFails cfg w t0 name err hc ho hw⟩
        | none =>
            have htot := readLoop_total w maxReadAttempts 0 0 makeBuff (by omega)
            obtain ⟨⟨t3, res⟩, hl⟩ := Option.isSome_iff_exists.mp htot
            rcases readLoop_shape w _ _ _ _ t3 res makeBuff_length (by omega) hl with
              ⟨h1, h2⟩ | ⟨m, n, data, h1, h2, h3⟩ | ⟨m, err, h1, h2, h3⟩
            · subst h1
              have hm := main_loopDone cfg w t0 t3 name _ hc ho hw hl
              refine ⟨_, 0, rfl, hne, hsel, Or.inr (Or.inr (Or.inl ⟨rfl, rfl⟩)), ?_⟩
              rw [hm, h2]
              simp [opening, maxReadAttempts]
            · subst h2
              have hm := main_loopDone cfg w t0 t3 name _ hc ho hw hl
              have hlt : ¬ (m = maxReadAttempts) := by omega
              refine ⟨_, 0, rfl, hne, hsel,
                Or.inr (Or.inr (Or.inr (Or.inl ⟨m, n, data, ?_, rfl, rfl⟩))), ?_⟩
              · simp only [maxReadAttempts] at h1; omega
              · rw [hm, h3]
                simp [opening, hlt]
            · subst h2
              have hm := main_loopFatal cfg w t0 t3 name hc ho hw hl
              refine ⟨_, 1, rfl, hne, hsel,
                Or.inr (Or.inr (Or.inr (Or.inr ⟨m, err, ?_, rfl, rfl⟩))), ?_⟩
              · simp only [maxReadAttempts] at h1; omega
              · rw [hm, h3]
                simp [opening]

/-- A run in which the open and the write succeed goes through the read phase in one
of three ways. -/
theorem main_readPhase (cfg : Config) (w : World) (t0 : List Event) (name : GoString)
    (hc : choosePort cfg w = (t0, some name)) (ho : w.Open name (modeOf cfg) = none)
    (hw : (w.Write cfg.msg).2 = none) :
    main cfg w = some ⟨t0 ++ opening cfg w name ++ idle 10 ++
        [Event.print .noData, Event.print .finished, Event.portClose], 0⟩ ∨
    (∃ m n data, m < 10 ∧ main cfg w = some ⟨t0 ++ opening cfg w name ++ idle m ++
        [Event.portRead 100, Event.print (.received n data), Event.print .finished,
          Event.portClose], 0⟩) ∨
    (∃ m err, m < 10 ∧ main cfg w = some ⟨t0 ++ opening cfg w name ++ idle m ++
        [Event.portRead 100, Event.logFatal (.readError err)], 1⟩) := by
  have htot := readLoop_total w maxReadAttempts 0 0 makeBuff (by omega)
  obtain ⟨⟨t3, res⟩, hl⟩ := Option.isSome_iff_exists.mp htot
  rcases readLoop_shape w _ _ _ _ t3 res makeBuff_length (by omega) hl with
    ⟨h1, h2⟩ | ⟨m, n, data, h1, h2, h3⟩ | ⟨m, err, h1, h2, h3⟩
  · subst h1
    left
    rw [main_loopDone cfg w t0 t3 name _ hc ho hw hl, h2]
    simp [maxReadAttempts]
  · subst h2
    right; left
    have hlt : ¬ (m = maxReadAttempts) := by omega
    refine ⟨m, n, data, by simp only [maxReadAttempts] at h1; omega, ?_⟩
    rw [main_loopDone cfg w t0 t3 name _ hc ho hw hl, h3]
    simp [hlt]
  · subst h2
    right; right
    refine ⟨m, err, by simp only [maxReadAttempts] at h1; omega, ?_⟩
    rw [main_loopFatal cfg w t0 t3 name hc ho hw hl, h3]
    simp

/-! ## Lemmas on the trace after the open -/

theorem openedNames_append (a b : List Event) :
    openedNames (a ++ b) = openedNames a ++ openedNames b := by
  simp [openedNames]

theorem sleepTotal_append (a b : List Event) :
    sleepTotal (a ++ b) = sleepTotal a + sleepTotal b := by
  simp [sleepTotal]

theorem closes_append (a b : List Event) : closes (a ++ b) = closes a + closes b := by
  simp [closes]

theorem openedNames_eq_nil (t : List Event) (h : ∀ e ∈ t, e.openName = none) :
    openedNames t = [] := by
  induction t with
  | nil => rfl
  | cons e t ih =>
      have he := h e (by simp)
      have ht := ih (fun x hx => h x (by simp [hx]))
      unfold openedNames at ht ⊢
      simp [he, ht]

theorem mem_idle (m : Nat) (e : Event) (h : e ∈ idle m) :
    e = Event.portRead 100 ∨ e = Event.sleep 500 := by
  induction m with
  | zero => simp [idle] at h
  | succ m ih =>
      simp only [idle, List.mem_cons] at h
      rcases h with h | h | h
      · exact Or.inl h
      · exact Or.inr h
      · exact ih h

theorem idle_quiet (m : Nat) :
    ∀ e ∈ idle m, e.openName = none ∧ e.isSelection = false := by
  intro e he
  rcases mem_idle m e he with h | h <;> subst h <;> exact ⟨rfl, rfl⟩

/-- After the open event a run neither opens a port again nor returns to the
selection stage. -/
theorem afterOpen_quiet (cfg : Config) (w : World) (name : GoString)
    (tail : List Event) (status : Nat) (h : afterOpen cfg w name tail status) :
    ∀ e ∈ tail, e.openName = none ∧ e.isSelection = false := by
  have hi := idle_quiet
  rcases h with ⟨err, h, _⟩ | ⟨err, h, _⟩ | ⟨h, _⟩ | ⟨m, n, data, _, h, _⟩ | ⟨m, err, _, h, _⟩
    <;> subst h
    <;> intro e he
    <;> simp only [opening, List.drop, List.mem_append, List.mem_cons, List.mem_singleton,
      List.not_mem_nil, or_false] at he
  · subst he; exact ⟨rfl, rfl⟩
  · rcases he with he | he | he <;> subst he <;> exact ⟨rfl, rfl⟩
  · rcases he with ((he | he | he | he | he) | he) | (he | he | he)
    · subst he; exact ⟨rfl, rfl⟩
    · subst he; exact ⟨rfl, rfl⟩
    · subst he; exact ⟨rfl, rfl⟩
    · subst he; exact ⟨rfl, rfl⟩
    · subst he; exact ⟨rfl, rfl⟩
    · exact hi _ e he
    · subst he; exact ⟨rfl, rfl⟩
    · subst he; exact ⟨rfl, rfl⟩
    · subst he; exact ⟨rfl, rfl⟩
  · rcases he with ((he | he | he | he | he) | he) | (he | he | he | he)
    · subst he; exact ⟨rfl, rfl⟩
    · subst he; exact ⟨rfl, rfl⟩
    · subst he; exact ⟨rfl, rfl⟩
    · subst he; exact ⟨rfl, rfl⟩
    · subst he; exact ⟨rfl, rfl⟩
    · exact hi _ e he
    · subst he; exact ⟨rfl, rfl⟩
    · subst he; exact ⟨rfl, rfl⟩
    · subst he; exact ⟨rfl, rfl⟩
    · subst he; exact ⟨rfl, rfl⟩
  · rcases he with ((he | he | he | he | he) | he) | (he | he)
    · subst he; exact ⟨rfl, rfl⟩
    · subst he; exact ⟨rfl, rfl⟩
    · subst he; exact ⟨rfl, rfl⟩
    · subst he; exact ⟨rfl, rfl⟩
    · subst he; exact ⟨rfl, rfl⟩
    · exact hi _ e he
    · subst he; exact ⟨rfl, rfl⟩
    · subst he; exact ⟨rfl, rfl⟩

theorem main_total (cfg : Config) (w : World) : ∃ o, main cfg w = some o := by
  rcases main_cases cfg w with ⟨_, _, _, _, hm⟩ | ⟨_, _, _, _, _, _, _, _, hm⟩
  · exact ⟨_, hm⟩
  · exact ⟨_, hm⟩

/-- The trace of a run is the trace of the selection stage followed by events that do
not belong to that stage; the port is opened once, with the selected name, if the
selection stage yields one, and otherwise the status is 1 and no port is opened. -/
theorem main_split (cfg : Config) (w : World) (o : Outcome) (h : main cfg w = some o) :
    ∃ rest, o.trace = (choosePort cfg w).1 ++ rest ∧
      (∀ e ∈ rest, e.isSelection = false) ∧
      openedNames o.trace = (choosePort cfg w).2.toList ∧
      ((choosePort cfg w).2 = none → o.status = 1) := by
  rcases main_cases cfg w with ⟨pre, m, hc, hsel, hm⟩ | ⟨t0, name, tail, status, hc, _, hsel, ha, hm⟩
  · rw [hm] at h
    simp only [Option.some.injEq] at h
    subst h
    refine ⟨[], by simp [hc], by simp, ?_, fun _ => rfl⟩
    rw [hc]
    apply openedNames_eq_nil
    intro e he
    rcases List.mem_append.mp he with he | he
    · have := hsel e he
      cases e <;> simp_all [Event.isSelection, Event.openName]
    · simp only [List.mem_singleton] at he
      subst he; rfl
  · rw [hm] at h
    simp only [Option.some.injEq] at h
    subst h
    have hq := afterOpen_quiet cfg w name tail status ha
    refine ⟨Event.print (.chosenPort name) :: Event.portOpen name (modeOf cfg) :: tail,
      by simp [hc], ?_, ?_, by simp [hc]⟩
    · intro e he
      simp only [List.mem_cons] at he
      rcases he with he | he | he
      · subst he; rfl
      · subst he; rfl
      · exact (hq e he).2
    · have h0 : openedNames t0 = [] := openedNames_selection t0 hsel
      have ht := openedNames_eq_nil tail (fun e he => (hq e he).1)
      rw [openedNames_append, h0, hc]
      unfold openedNames at ht ⊢
      simp [Event.openName, ht]

/-- The port is closed exactly in the runs that end with status 0. -/
theorem main_closes (cfg : Config) (w : World) (o : Outcome) (h : main cfg w = some o) :
    closes o.trace = if o.status = 0 then 1 else 0 := by
  rcases main_cases cfg w with ⟨pre, m, hc, hsel, hm⟩ | ⟨t0, name, tail, status, hc, _, hsel, ha, hm⟩
  · rw [hm] at h
    simp only [Option.some.injEq] at h
    subst h
    rw [closes_append, closes_selection pre hsel]
    rfl
  · rw [hm] at h
    simp only [Option.some.injEq] at h
    subst h
    have h0 := closes_selection t0 hsel
    rcases ha with ⟨err, h, hs⟩ | ⟨err, h, hs⟩ | ⟨h, hs⟩ | ⟨m, n, data, _, h, hs⟩ |
      ⟨m, err, _, h, hs⟩
      <;> subst h <;> subst hs
      <;> simp only [closes_append, h0, opening, List.drop]
      <;> have hi := fun m => closes_idle m
      <;> unfold closes at hi ⊢
      <;> simp [Event.isClose, hi]

/-! ## The three courses of the read phase -/

theorem readLoop_allIdle (w : World)
    (hzero : ∀ j, j < 10 → w.Read j = ([], none)) :
    readLoop w maxReadAttempts 0 0 makeBuff = some (idle 10, .done 10) := by
  have h := readLoop_idle w 10 0 0 0 makeBuff makeBuff_length (by decide)
    (fun j hj => by simpa using hzero j hj)
  have hx := readLoop_exit w 0 10 makeBuff
  simp only [maxReadAttempts] at hx ⊢
  simp only [Nat.add_zero, Nat.zero_add] at h
  rw [h, hx]
  simp

theorem readLoop_dataAt (w : World) (k : Nat) (data : List Byte)
    (hk1 : 1 ≤ k) (hk10 : k ≤ 10)
    (hzero : ∀ j, j + 1 < k → w.Read j = ([], none))
    (hdata : w.Read (k - 1) = (data, none))
    (hn1 : 1 ≤ data.length) (hn100 : data.length ≤ 100) :
    readLoop w maxReadAttempts 0 0 makeBuff =
      some (idle (k - 1) ++ [Event.portRead 100, Event.print (.received data.length data)],
        .done (k - 1)) := by
  have h := readLoop_idle w (k - 1) (10 - k + 1) 0 0 makeBuff makeBuff_length
    (by simp only [maxReadAttempts]; omega)
    (fun j hj => by simpa using hzero j (by omega))
  have hd := readLoop_data w (10 - k) (0 + (k - 1)) (0 + (k - 1)) makeBuff data
    (by simp only [maxReadAttempts]; omega) makeBuff_length (by simpa using hdata) hn1 hn100
  have hf : maxReadAttempts = k - 1 + (10 - k + 1) := by simp only [maxReadAttempts]; omega
  rw [hf, h, hd]
  simp

theorem readLoop_errorAt (w : World) (k : Nat) (err : GoString)
    (hk1 : 1 ≤ k) (hk10 : k ≤ 10)
    (hzero : ∀ j, j + 1 < k → w.Read j = ([], none))
    (herr : (w.Read (k - 1)).2 = some err) :
    readLoop w maxReadAttempts 0 0 makeBuff =
      some (idle (k - 1) ++ [Event.portRead 100, Event.logFatal (.readError err)], .fatal) := by
  have h := readLoop_idle w (k - 1) (10 - k + 1) 0 0 makeBuff makeBuff_length
    (by simp only [maxReadAttempts]; omega)
    (fun j hj => by simpa using hzero j (by omega))
  have hd := readLoop_error w (10 - k) (0 + (k - 1)) (0 + (k - 1)) makeBuff err
    (by simp only [maxReadAttempts]; omega) makeBuff_length (by simpa using herr)
  have hf : maxReadAttempts = k - 1 + (10 - k + 1) := by simp only [maxReadAttempts]; omega
  rw [hf, h, hd]
  simp

theorem reads_append (a b : List Event) : reads (a ++ b) = reads a + reads b := by
  simp [reads]

theorem reads_opening (cfg : Config) (w : World) (name : GoString) :
    reads (opening cfg w name) = 0 := by
  simp [reads, opening, Event.isRead]

theorem filter_report_opening (cfg : Config) (w : World) (name : GoString) :
    (opening cfg w name).filter Event.isReport = [] := by
  simp [opening, Event.isReport]

/-! ## The claims -/

/-- C1. Read phase, data arrives.  In a run in which the open and the write succeed,
if read attempts `1 .. k-1` return no bytes and no error and attempt `k` (with
`1 ≤ k ≤ 10`) returns the bytes `data` (between 1 and 100 of them) without error, then
the run performs exactly `k` reads, the report of `data` with its length follows the
read number `k` at once, it is the only report, and the program finishes normally. -/
theorem C1_data_ends_polling (cfg : Config) (w : World) (t0 : List Event) (name : GoString)
    (k : Nat) (data : List Byte)
    (hport : choosePort cfg w = (t0, some name))
    (hopen : w.Open name (modeOf cfg) = none)
    (hwrite : (w.Write cfg.msg).2 = none)
    (hk1 : 1 ≤ k) (hk10 : k ≤ 10)
    (hzero : ∀ j, j + 1 < k → w.Read j = ([], none))
    (hdata : w.Read (k - 1) = (data, none))
    (hn1 : 1 ≤ data.length) (hn100 : data.length ≤ 100) :
    ∃ o, main cfg w = some o ∧
      o.trace = t0 ++ opening cfg w name ++ idle (k - 1) ++
        [Event.portRead 100, Event.print (.received data.length data),
         Event.print .finished, Event.portClose] ∧
      reads o.trace = k ∧
      o.trace.filter Event.isReport = [Event.print (.received data.length data)] ∧
      o.status = 0 := by
  have hl := readLoop_dataAt w k data hk1 hk10 hzero hdata hn1 hn100
  have hm := main_loopDone cfg w t0 _ name (k - 1) hport hopen hwrite hl
  have hne : ¬ (k - 1 = maxReadAttempts) := by simp only [maxReadAttempts]; omega
  simp only [hne, if_false, List.append_nil, List.append_assoc, List.cons_append,
    List.nil_append] at hm
  have hsel := (choosePort_some cfg w t0 name hport).2
  refine ⟨_, hm, by simp, ?_, ?_, rfl⟩
  · simp only [reads_append, reads_selection t0 hsel, reads_opening, reads_idle]
    simp [reads, Event.isRead]
    omega
  · simp only [List.filter_append, filter_selection _ isReport_selection t0 hsel,
      filter_report_opening, filter_idle Event.isReport rfl rfl]
    simp [Event.isReport]

/-- Witness for C1: `-port=A`, the port answers `PONG` on the third read. -/
theorem C1_data_ends_polling_witness :
    ∃ o, main cfgABC (sampleWorld [] [] writeAll
        (fun i => if i = 2 then ([80, 79, 78, 71], none) else ([], none))) = some o ∧
      o.trace = [] ++ opening cfgABC (sampleWorld [] [] writeAll
        (fun i => if i = 2 then ([80, 79, 78, 71], none) else ([], none))) [65] ++ idle (3 - 1) ++
        [Event.portRead 100, Event.print (.received ([80, 79, 78, 71] : List Byte).length
            [80, 79, 78, 71]),
         Event.print .finished, Event.portClose] ∧
      reads o.trace = 3 ∧
      o.trace.filter Event.isReport =
        [Event.print (.received ([80, 79, 78, 71] : List Byte).length [80, 79, 78, 71])] ∧
      o.status = 0 :=
  C1_data_ends_polling cfgABC _ [] [65] 3 [80, 79, 78, 71] (by decide) (by decide) (by decide)
    (by decide) (by decide)
    (fun j hj => by
      have : j ≠ 2 := by omega
      simp [sampleWorld, this])
    (by decide) (by decide) (by decide)

/-- C2. Read phase, timeout.  In a run in which the open and the write succeed and each
of the 10 read attempts returns no bytes and no error, the run performs exactly 10
reads, prints the no-data line as its only report, calls no `log.Fatal`, and ends
with exit status 0. -/
theorem C2_timeout_is_normal (cfg : Config) (w : World) (t0 : List Event) (name : GoString)
    (hport : choosePort cfg w = (t0, some name))
    (hopen : w.Open name (modeOf cfg) = none)
    (hwrite : (w.Write cfg.msg).2 = none)
    (hzero : ∀ j, j < 10 → w.Read j = ([], none)) :
    ∃ o, main cfg w = some o ∧
      o.trace = t0 ++ opening cfg w name ++ idle 10 ++
        [Event.print .noData, Event.print .finished, Event.portClose] ∧
      reads o.trace = 10 ∧
      o.trace.filter Event.isReport = [Event.print .noData] ∧
      Msg.noData.format = "Nie odebrano danych w określonym czasie.\n" ∧
      o.trace.filter Event.isFatal = [] ∧
      o.status = 0 := by
  have hl := readLoop_allIdle w hzero
  have hm := main_loopDone cfg w t0 _ name 10 hport hopen hwrite hl
  simp only [maxReadAttempts, if_true, List.append_assoc, List.cons_append,
    List.nil_append] at hm
  have hsel := (choosePort_some cfg w t0 name hport).2
  refine ⟨_, hm, by simp, ?_, ?_, rfl, ?_, rfl⟩
  · simp only [reads_append, reads_selection t0 hsel, reads_opening, reads_idle]
    simp [reads, Event.isRead]
  · simp only [List.filter_append, filter_selection _ isReport_selection t0 hsel,
      filter_report_opening, filter_idle Event.isReport rfl rfl]
    simp [Event.isReport]
  · simp only [List.filter_append, filter_selection _ isFatal_selection t0 hsel,
      filter_idle Event.isFatal rfl rfl]
    simp [opening, Event.isFatal]

/-- Witness for C2: `-port=A`, the port never has anything to read. -/
theorem C2_timeout_is_normal_witness :
    ∃ o, main cfgABC (sampleWorld [] [] writeAll readNothing) = some o ∧
      o.trace = [] ++ opening cfgABC (sampleWorld [] [] writeAll readNothing) [65] ++ idle 10 ++
        [Event.print .noData, Event.print .finished, Event.portClose] ∧
      reads o.trace = 10 ∧
      o.trace.filter Event.isReport = [Event.print .noData] ∧
      Msg.noData.format = "Nie odebrano danych w określonym czasie.\n" ∧
      o.trace.filter Event.isFatal = [] ∧
      o.status = 0 :=
  C2_timeout_is_normal cfgABC (sampleWorld [] [] writeAll readNothing) [] [65]
    (by decide) (by decide) (by decide) (fun _ _ => rfl)

/-- C3. Port selection by index.  The device list `ports` (of size at least 1) has been
enumerated and the trimmed input line parses as the integer `i` without error.  If
`1 ≤ i ≤ N`, the name chosen at lines 62-79 is the name of element `i - 1` of the list.
Otherwise the chosen name is the trimmed input text itself.  In both cases that name,
unless it is empty, is the one with which the selection stage ends. -/
theorem C3_numeric_input (cfg : Config) (w : World) (ports : List PortDetails) (i : Int)
    (hflag : cfg.port = [])
    (henum : w.GetDetailedPortsList = (ports, none))
    (hN : 1 ≤ ports.length)
    (hnum : w.Atoi (w.TrimSpace w.ReadString) = (i, none)) :
    (1 ≤ i ∧ i ≤ ports.length →
      (ports[(i - 1).toNat]?).map PortDetails.Name = some (selectPort w ports).2) ∧
    (¬ (1 ≤ i ∧ i ≤ ports.length) → (selectPort w ports).2 = w.TrimSpace w.ReadString) ∧
    ((selectPort w ports).2 ≠ [] → (choosePort cfg w).2 = some (selectPort w ports).2) := by
  refine ⟨?_, ?_, ?_⟩
  · intro hi
    have hcond : (w.Atoi (w.TrimSpace w.ReadString)).2 = none ∧
        (w.Atoi (w.TrimSpace w.ReadString)).1 ≥ 1 ∧
        (w.Atoi (w.TrimSpace w.ReadString)).1 ≤ ports.length := by
      rw [hnum]; exact ⟨rfl, hi.1, hi.2⟩
    have hlt : (i - 1).toNat < ports.length := by omega
    rw [selectPort_index w ports hcond, List.getElem?_eq_getElem hlt]
    simp [hnum]
  · intro hi
    have hcond : ¬ ((w.Atoi (w.TrimSpace w.ReadString)).2 = none ∧
        (w.Atoi (w.TrimSpace w.ReadString)).1 ≥ 1 ∧
        (w.Atoi (w.TrimSpace w.ReadString)).1 ≤ ports.length) := by
      rw [hnum]; intro h; exact hi ⟨h.2.1, h.2.2⟩
    rw [selectPort_literal w ports hcond]
  · intro hne
    have hlen : ¬ (ports.length = 0) := by omega
    simp [choosePort, hflag, henum, hlen, hne]

/-- Witness for C3: two devices `A` and `B`, the user types `2` and a line feed. -/
theorem C3_numeric_input_witness :
    (1 ≤ (2 : Int) ∧ (2 : Int) ≤ [plainPort [65], plainPort [66]].length →
      ([plainPort [65], plainPort [66]][((2 : Int) - 1).toNat]?).map PortDetails.Name =
        some (selectPort (sampleWorld [plainPort [65], plainPort [66]] [50, 10] writeAll
          readNothing) [plainPort [65], plainPort [66]]).2) ∧
    (¬ (1 ≤ (2 : Int) ∧ (2 : Int) ≤ [plainPort [65], plainPort [66]].length) →
      (selectPort (sampleWorld [plainPort [65], plainPort [66]] [50, 10] writeAll
        readNothing) [plainPort [65], plainPort [66]]).2 = trimSpaceASCII [50, 10]) ∧
    ((selectPort (sampleWorld [plainPort [65], plainPort [66]] [50, 10] writeAll
        readNothing) [plainPort [65], plainPort [66]]).2 ≠ [] →
      (choosePort cfgAsk (sampleWorld [plainPort [65], plainPort [66]] [50, 10] writeAll
        readNothing)).2 =
        some (selectPort (sampleWorld [plainPort [65], plainPort [66]] [50, 10] writeAll
          readNothing) [plainPort [65], plainPort [66]]).2) :=
  C3_numeric_input cfgAsk
    (sampleWorld [plainPort [65], plainPort [66]] [50, 10] writeAll readNothing)
    [plainPort [65], plainPort [66]] 2 rfl rfl (by decide) (by decide)

/-- C6. Explicit port.  When `-port` is a non-empty name `X`, the run contains no event
of the selection stage (no enumeration, no list, no prompt, no read from standard
input), its first two events are the line naming `X` and the call of `serial.Open`
with `X`, and that is the only call of `serial.Open`. -/
theorem C6_explicit_port (cfg : Config) (w : World) (hX : cfg.port ≠ []) :
    ∃ o rest, main cfg w = some o ∧
      o.trace = Event.print (.chosenPort cfg.port)
        :: Event.portOpen cfg.port (modeOf cfg) :: rest ∧
      openedNames o.trace = [cfg.port] ∧
      o.trace.filter Event.isSelection = [] := by
  have hc : choosePort cfg w = ([], some cfg.port) := by simp [choosePort, hX]
  rcases main_cases cfg w with ⟨pre, m, hc2, _, _⟩ | ⟨t0, name, tail, status, hc2, _, _, ha, hm⟩
  · rw [hc] at hc2
    simp at hc2
  · rw [hc] at hc2
    simp only [Prod.mk.injEq, Option.some.injEq] at hc2
    obtain ⟨h1, h2⟩ := hc2
    subst h1; subst h2
    have hq := afterOpen_quiet cfg w _ tail status ha
    refine ⟨_, tail, hm, by simp, ?_, ?_⟩
    · have ht := openedNames_eq_nil tail (fun e he => (hq e he).1)
      unfold openedNames at ht ⊢
      simp [Event.openName, ht]
    · rw [List.filter_eq_nil_iff]
      intro e he
      simp only [List.nil_append, List.mem_cons] at he
      rcases he with he | he | he
      · subst he; simp [Event.isSelection]
      · subst he; simp [Event.isSelection]
      · simp [(hq e he).2]

/-- Witness for C6: `-port=A` with two devices attached and a line waiting on
standard input. -/
theorem C6_explicit_port_witness :
    ∃ o rest, main cfgABC (sampleWorld [plainPort [65], plainPort [66]] [50, 10] writeAll
        readNothing) = some o ∧
      o.trace = Event.print (.chosenPort cfgABC.port)
        :: Event.portOpen cfgABC.port (modeOf cfgABC) :: rest ∧
      openedNames o.trace = [cfgABC.port] ∧
      o.trace.filter Event.isSelection = [] :=
  C6_explicit_port cfgABC _ (by decide)

/-- C7. Empty selection is fatal.  When the port is chosen interactively from an
enumerated list and the name chosen at lines 57-79 is empty, the run ends in the
fatal message of line 82 with status 1 and `serial.Open` is never called.  And in
every run, whatever the flags and the world, each name given to `serial.Open` is
non-empty. -/
theorem C7_empty_name_is_fatal (cfg : Config) (w : World) :
    (cfg.port = [] → w.GetDetailedPortsList.2 = none → w.GetDetailedPortsList.1 ≠ [] →
      (selectPort w w.GetDetailedPortsList.1).2 = [] →
      ∃ o pre, main cfg w = some o ∧ o.trace = pre ++ [Event.logFatal .noPortChosen] ∧
        openedNames o.trace = [] ∧ o.status = 1) ∧
    (∃ o, main cfg w = some o ∧ ∀ name ∈ openedNames o.trace, name ≠ []) := by
  constructor
  · intro hflag herr hports hempty
    have hc : choosePort cfg w =
        ([Event.print .scanning, Event.enumerate, Event.print .listHeader]
          ++ listPorts w.GetDetailedPortsList.1 0 ++ (selectPort w w.GetDetailedPortsList.1).1
          ++ [Event.logFatal .noPortChosen], none) := by
      simp [choosePort, hflag, herr, hports, hempty]
    obtain ⟨o, ho⟩ := main_total cfg w
    obtain ⟨rest, _, _, hopened, hstatus⟩ := main_split cfg w o ho
    have hm := main_noPort cfg w _ hc
    rw [ho] at hm
    simp only [Option.some.injEq] at hm
    refine ⟨o, _, ho, by rw [hm], ?_, hstatus (by rw [hc])⟩
    rw [hopened, hc]
    rfl
  · obtain ⟨o, ho⟩ := main_total cfg w
    obtain ⟨rest, _, _, hopened, _⟩ := main_split cfg w o ho
    refine ⟨o, ho, ?_⟩
    intro name hname
    rw [hopened] at hname
    rcases hc : choosePort cfg w with ⟨t0, _ | chosen⟩
    · rw [hc] at hname
      simp at hname
    · rw [hc] at hname
      simp only [Option.toList, List.mem_singleton] at hname
      subst hname
      exact (choosePort_some cfg w t0 name hc).1

/-- Witness for C7: one device `A`, the user only presses the return key. -/
theorem C7_empty_name_is_fatal_witness :
    ∃ o pre, main cfgAsk (sampleWorld [plainPort [65]] [10] writeAll readNothing) = some o ∧
      o.trace = pre ++ [Event.logFatal .noPortChosen] ∧
      openedNames o.trace = [] ∧ o.status = 1 :=
  (C7_empty_name_is_fatal cfgAsk (sampleWorld [plainPort [65]] [10] writeAll readNothing)).1
    rfl rfl (by decide) (by decide)

theorem found_iff (ports : List PortDetails) (name : GoString) :
    found ports name = true ↔ name ∈ ports.map PortDetails.Name := by
  simp only [found, List.any_eq_true, beq_iff_eq, List.mem_map]

theorem listPorts_noWarning : ∀ (ports : List PortDetails) (i : Nat),
    (listPorts ports i).filter Event.isWarning = [] := by
  intro ports
  induction ports with
  | nil => intro i; rfl
  | cons p rest ih =>
      intro i
      by_cases hu : p.IsUSB = true <;> simp [listPorts, hu, ih, Event.isWarning]

theorem isWarning_rest (e : Event) (h : e.isSelection = false) : e.isWarning = false := by
  cases e with
  | print m => cases m <;> simp_all [Event.isSelection, Event.isWarning]
  | _ => rfl

/-- The selection stage when the input is taken as a literal name. -/
theorem choosePort_literal (cfg : Config) (w : World) (ports : List PortDetails)
    (hflag : cfg.port = []) (henum : w.GetDetailedPortsList = (ports, none))
    (hN : ports ≠ [])
    (hlit : ¬ ((w.Atoi (w.TrimSpace w.ReadString)).2 = none ∧
      (w.Atoi (w.TrimSpace w.ReadString)).1 ≥ 1 ∧
      (w.Atoi (w.TrimSpace w.ReadString)).1 ≤ ports.length)) :
    (choosePort cfg w).1.filter Event.isWarning =
        (if found ports (w.TrimSpace w.ReadString) then []
          else [Event.print (.notListed (w.TrimSpace w.ReadString))]) ∧
      (choosePort cfg w).2 =
        (if w.TrimSpace w.ReadString = [] then none else some (w.TrimSpace w.ReadString)) := by
  have hs := selectPort_literal w ports hlit
  by_cases hempty : w.TrimSpace w.ReadString = []
  · cases hf : found ports (w.TrimSpace w.ReadString) <;>
      (have hf2 := hf
       rw [hempty] at hf2
       simp [choosePort, hflag, henum, hN, hs, hempty, hf2, listPorts_noWarning,
        Event.isWarning])
  · cases hf : found ports (w.TrimSpace w.ReadString) <;>
      simp [choosePort, hflag, henum, hN, hs, hempty, hf, listPorts_noWarning,
        Event.isWarning]

/-- C8 as stated fails: one device `A` is listed and the user only presses the return
key.  The input is taken as the literal name, the empty one, which is not in the
list; the warning is printed, and then the run ends with status 1 without calling
`serial.Open`. -/
theorem C8_warning_then_no_open :
    found [plainPort [65]] (trimSpaceASCII [10]) = false ∧
    (atoiDecimal (trimSpaceASCII [10])).2 ≠ none ∧
    (main cfgAsk (sampleWorld [plainPort [65]] [10] writeAll readNothing)).map
      (fun o => (o.trace.filter Event.isWarning, openedNames o.trace, o.status)) =
      some ([Event.print (.notListed [])], [], 1) := by
  decide

/-- C8, amended.  The port is chosen interactively from the enumerated list `ports`
and the trimmed input is taken as a literal name (it is not an index in range).  If
the name is not the name of a listed device, the warning of line 77 is printed once;
if it is, no warning is printed.  With or without the warning, a non-empty name is
then given to `serial.Open`; with the empty name the run ends with status 1 and
`serial.Open` is not called. -/
theorem C8_literal_name (cfg : Config) (w : World) (ports : List PortDetails)
    (hflag : cfg.port = []) (henum : w.GetDetailedPortsList = (ports, none))
    (hN : ports ≠ [])
    (hlit : ¬ ((w.Atoi (w.TrimSpace w.ReadString)).2 = none ∧
      (w.Atoi (w.TrimSpace w.ReadString)).1 ≥ 1 ∧
      (w.Atoi (w.TrimSpace w.ReadString)).1 ≤ ports.length)) :
    ∃ o, main cfg w = some o ∧
      (w.TrimSpace w.ReadString ∉ ports.map PortDetails.Name →
        o.trace.filter Event.isWarning =
          [Event.print (.notListed (w.TrimSpace w.ReadString))]) ∧
      (w.TrimSpace w.ReadString ∈ ports.map PortDetails.Name →
        o.trace.filter Event.isWarning = []) ∧
      (w.TrimSpace w.ReadString ≠ [] →
        openedNames o.trace = [w.TrimSpace w.ReadString]) ∧
      (w.TrimSpace w.ReadString = [] → openedNames o.trace = [] ∧ o.status = 1) := by
  obtain ⟨o, ho⟩ := main_total cfg w
  obtain ⟨rest, htrace, hrest, hopened, hstatus⟩ := main_split cfg w o ho
  obtain ⟨hwarn, hname⟩ := choosePort_literal cfg w ports hflag henum hN hlit
  have hfilter : o.trace.filter Event.isWarning = (choosePort cfg w).1.filter Event.isWarning := by
    have hr : rest.filter Event.isWarning = [] := by
      rw [List.filter_eq_nil_iff]
      intro e he
      simp [isWarning_rest e (hrest e he)]
    rw [htrace, List.filter_append, hr, List.append_nil]
  refine ⟨o, ho, ?_, ?_, ?_, ?_⟩
  · intro habsent
    have hf : ¬ (found ports (w.TrimSpace w.ReadString) = true) :=
      fun h => habsent ((found_iff _ _).mp h)
    rw [hfilter, hwarn]
    simp [hf]
  · intro hpresent
    rw [hfilter, hwarn]
    simp [(found_iff _ _).mpr hpresent]
  · intro hne
    rw [hopened, hname]
    simp [hne]
  · intro hempty
    rw [hname] at hstatus
    rw [hopened, hname]
    simp [hempty] at hstatus ⊢
    exact hstatus

/-- Witness for C8: one device `A` is listed, the user types `B` and a line feed. -/
theorem C8_literal_name_witness :
    ∃ o, main cfgAsk (sampleWorld [plainPort [65]] [66, 10] writeAll readNothing) = some o ∧
      (trimSpaceASCII [66, 10] ∉ [plainPort [65]].map PortDetails.Name →
        o.trace.filter Event.isWarning =
          [Event.print (.notListed (trimSpaceASCII [66, 10]))]) ∧
      (trimSpaceASCII [66, 10] ∈ [plainPort [65]].map PortDetails.Name →
        o.trace.filter Event.isWarning = []) ∧
      (trimSpaceASCII [66, 10] ≠ [] →
        openedNames o.trace = [trimSpaceASCII [66, 10]]) ∧
      (trimSpaceASCII [66, 10] = [] → openedNames o.trace = [] ∧ o.status = 1) :=
  C8_literal_name cfgAsk (sampleWorld [plainPort [65]] [66, 10] writeAll readNothing)
    [plainPort [65]] rfl rfl (by decide) (by decide)

theorem isWrite_selection (e : Event) (h : e.isSelection = true) : e.isWrite = false := by
  cases e <;> simp_all [Event.isSelection, Event.isWrite]

theorem isSent_selection (e : Event) (h : e.isSelection = true) : e.isSent = false := by
  cases e with
  | print m => cases m <;> simp_all [Event.isSelection, Event.isSent]
  | _ => rfl

/-- C9 as stated fails: `-msg=ABC`, and the port's `Write` returns `(1, nil)`, one byte
accepted and no error.  The write does not fail, the message has 3 bytes, and the
line of line 109 reports 1 byte. -/
theorem C9_short_write_reported :
    ((sampleWorld [] [] (fun _ => (1, none)) readNothing).Write cfgABC.msg).2 = none ∧
    cfgABC.msg.length = 3 ∧
    (main cfgABC (sampleWorld [] [] (fun _ => (1, none)) readNothing)).map
      (fun o => (o.trace.filter Event.isWrite, o.trace.filter Event.isSent)) =
      some ([Event.portWrite [65, 66, 67]], [Event.print (.sent 1 [65, 66, 67])]) := by
  decide

/-- C9, amended.  In a run in which the open succeeds and the write returns no error,
there is exactly one write, its argument is the bytes of the `-msg` text, and exactly
one line reports the bytes written: it shows the count returned by that `Write`
call.  When the port returns the full length of the message, the count shown is the
byte length of the message. -/
theorem C9_write_phase (cfg : Config) (w : World) (t0 : List Event) (name : GoString)
    (hport : choosePort cfg w = (t0, some name))
    (hopen : w.Open name (modeOf cfg) = none)
    (hwrite : (w.Write cfg.msg).2 = none) :
    ∃ o, main cfg w = some o ∧
      o.trace.filter Event.isWrite = [Event.portWrite cfg.msg] ∧
      o.trace.filter Event.isSent = [Event.print (.sent (w.Write cfg.msg).1 cfg.msg)] ∧
      ((w.Write cfg.msg).1 = cfg.msg.length →
        o.trace.filter Event.isSent = [Event.print (.sent cfg.msg.length cfg.msg)]) := by
  have hsel := (choosePort_some cfg w t0 name hport).2
  have hW := filter_selection _ isWrite_selection t0 hsel
  have hS := filter_selection _ isSent_selection t0 hsel
  have hiW := filter_idle Event.isWrite rfl rfl
  have hiS := filter_idle Event.isSent rfl rfl
  rcases main_readPhase cfg w t0 name hport hopen hwrite with
    hm | ⟨m, n, data, _, hm⟩ | ⟨m, err, _, hm⟩
  · refine ⟨_, hm, ?_, ?_, ?_⟩
    · simp [List.filter_append, hW, hiW, opening, Event.isWrite]
    · simp [List.filter_append, hS, hiS, opening, Event.isSent]
    · intro hfull
      simp [List.filter_append, hS, hiS, opening, Event.isSent, hfull]
  · refine ⟨_, hm, ?_, ?_, ?_⟩
    · simp [List.filter_append, hW, hiW, opening, Event.isWrite]
    · simp [List.filter_append, hS, hiS, opening, Event.isSent]
    · intro hfull
      simp [List.filter_append, hS, hiS, opening, Event.isSent, hfull]
  · refine ⟨_, hm, ?_, ?_, ?_⟩
    · simp [List.filter_append, hW, hiW, opening, Event.isWrite]
    · simp [List.filter_append, hS, hiS, opening, Event.isSent]
    · intro hfull
      simp [List.filter_append, hS, hiS, opening, Event.isSent, hfull]

/-- Witness for C9: `-port=A -msg=ABC`, the port accepts the three bytes. -/
theorem C9_write_phase_witness :
    ∃ o, main cfgABC (sampleWorld [] [] writeAll readNothing) = some o ∧
      o.trace.filter Event.isWrite = [Event.portWrite cfgABC.msg] ∧
      o.trace.filter Event.isSent =
        [Event.print (.sent ((sampleWorld [] [] writeAll readNothing).Write cfgABC.msg).1
          cfgABC.msg)] ∧
      (((sampleWorld [] [] writeAll readNothing).Write cfgABC.msg).1 = cfgABC.msg.length →
        o.trace.filter Event.isSent = [Event.print (.sent cfgABC.msg.length cfgABC.msg)]) :=
  C9_write_phase cfgABC (sampleWorld [] [] writeAll readNothing) [] [65]
    (by decide) (by decide) (by decide)

theorem sleepTotal_opening (cfg : Config) (w : World) (name : GoString) :
    sleepTotal (opening cfg w name) = 500 := by
  simp [sleepTotal, opening, Event.pause]

/-- C10 as stated fails: in the run in which all 10 read attempts return nothing, the
program sleeps 5500 ms in total, which is more than 5000 ms. -/
theorem C10_timeout_run_sleeps_5500 :
    (main cfgABC (sampleWorld [] [] writeAll readNothing)).map
      (fun o => (reads o.trace, sleepTotal o.trace, decide (sleepTotal o.trace ≤ 5000))) =
      some (10, 5500, false) := by
  decide

/-- C10, amended.  In a run that reaches the read phase, the program sleeps 500 ms
before the polling loop (the settle delay) and at most 5000 ms in the loop, hence at
most 5500 ms in total; the run in which all 10 read attempts return nothing sleeps
5500 ms in total. -/
theorem C10_pause_bound (cfg : Config) (w : World) (t0 : List Event) (name : GoString)
    (hport : choosePort cfg w = (t0, some name))
    (hopen : w.Open name (modeOf cfg) = none)
    (hwrite : (w.Write cfg.msg).2 = none) :
    ∃ o rest, main cfg w = some o ∧
      o.trace = t0 ++ opening cfg w name ++ rest ∧
      sleepTotal (t0 ++ opening cfg w name) = 500 ∧
      sleepTotal rest ≤ 5000 ∧
      sleepTotal o.trace ≤ 5500 ∧
      ((∀ j, j < 10 → w.Read j = ([], none)) → sleepTotal o.trace = 5500) := by
  have hsel := (choosePort_some cfg w t0 name hport).2
  have h0 := sleepTotal_selection t0 hsel
  have hop := sleepTotal_opening cfg w name
  have hfront : sleepTotal (t0 ++ opening cfg w name) = 500 := by
    rw [sleepTotal_append, h0, hop]
  have hall : (∀ j, j < 10 → w.Read j = ([], none)) →
      main cfg w = some ⟨t0 ++ opening cfg w name ++ idle 10 ++
        [Event.print .noData, Event.print .finished, Event.portClose], 0⟩ := by
    intro hzero
    have hm := main_loopDone cfg w t0 _ name 10 hport hopen hwrite (readLoop_allIdle w hzero)
    simpa [maxReadAttempts] using hm
  have hfull : sleepTotal (t0 ++ opening cfg w name ++ idle 10 ++
      [Event.print .noData, Event.print .finished, Event.portClose]) = 5500 := by
    rw [sleepTotal_append, sleepTotal_append, hfront, sleepTotal_idle]
    rfl
  rcases main_readPhase cfg w t0 name hport hopen hwrite with
    hm | ⟨m, n, data, hlt, hm⟩ | ⟨m, err, hlt, hm⟩
  · refine ⟨_, idle 10 ++ [Event.print .noData, Event.print .finished, Event.portClose],
      hm, by simp, hfront, ?_, ?_, fun _ => hfull⟩
    · rw [sleepTotal_append, sleepTotal_idle]
      simp [sleepTotal, Event.pause]
    · rw [hfull]
  · have hrest : sleepTotal (idle m ++ [Event.portRead 100, Event.print (.received n data),
        Event.print .finished, Event.portClose]) = 500 * m := by
      rw [sleepTotal_append, sleepTotal_idle]
      simp [sleepTotal, Event.pause]
    have htot : sleepTotal (t0 ++ opening cfg w name ++ idle m ++
        [Event.portRead 100, Event.print (.received n data), Event.print .finished,
          Event.portClose]) = 500 + 500 * m := by
      rw [List.append_assoc, sleepTotal_append, hfront, hrest]
    refine ⟨_, idle m ++ [Event.portRead 100, Event.print (.received n data),
      Event.print .finished, Event.portClose], hm, by simp, hfront, ?_, ?_, ?_⟩
    · rw [hrest]; omega
    · simp only [htot]; omega
    · intro hzero
      rw [hall hzero] at hm
      simp only [Option.some.injEq] at hm
      rw [← hm]
      exact hfull
  · have hrest : sleepTotal (idle m ++ [Event.portRead 100,
        Event.logFatal (.readError err)]) = 500 * m := by
      rw [sleepTotal_append, sleepTotal_idle]
      simp [sleepTotal, Event.pause]
    have htot : sleepTotal (t0 ++ opening cfg w name ++ idle m ++
        [Event.portRead 100, Event.logFatal (.readError err)]) = 500 + 500 * m := by
      rw [List.append_assoc, sleepTotal_append, hfront, hrest]
    refine ⟨_, idle m ++ [Event.portRead 100, Event.logFatal (.readError err)],
      hm, by simp, hfront, ?_, ?_, ?_⟩
    · rw [hrest]; omega
    · simp only [htot]; omega
    · intro hzero
      rw [hall hzero] at hm
      simp only [Option.some.injEq] at hm
      rw [← hm]
      exact hfull

/-- Witness for C10: `-port=A`, the port never has anything to read. -/
theorem C10_pause_bound_witness :
    ∃ o rest, main cfgABC (sampleWorld [] [] writeAll readNothing) = some o ∧
      o.trace = [] ++ opening cfgABC (sampleWorld [] [] writeAll readNothing) [65] ++ rest ∧
      sleepTotal ([] ++ opening cfgABC (sampleWorld [] [] writeAll readNothing) [65]) = 500 ∧
      sleepTotal rest ≤ 5000 ∧
      sleepTotal o.trace ≤ 5500 ∧
      ((∀ j, j < 10 → (sampleWorld [] [] writeAll readNothing).Read j = ([], none)) →
        sleepTotal o.trace = 5500) :=
  C10_pause_bound cfgABC (sampleWorld [] [] writeAll readNothing) [] [65]
    (by decide) (by decide) (by decide)

/-- C4 fails on the code.  With `-port=A -msg=ABC` the open succeeds.  In the first
run the write returns an error, in the second the first read returns an error.  Both
runs end in `log.Fatalf` with status 1, the port has been opened once, and
`port.Close` is never called: the deferred call does not run under `os.Exit`. -/
theorem C4_fatal_exit_skips_close :
    (main cfgABC (sampleWorld [] [] (fun _ => (0, some [])) readNothing)).map
      (fun o => (o.status, openedNames o.trace, closes o.trace)) = some (1, [[65]], 0) ∧
    (main cfgABC (sampleWorld [] [] writeAll (fun _ => ([], some [])))).map
      (fun o => (o.status, openedNames o.trace, closes o.trace)) = some (1, [[65]], 0) := by
  decide

theorem reads_eq_zero (t : List Event) (h : t.filter Event.isRead = []) : reads t = 0 := by
  unfold reads
  rw [List.countP_eq_length_filter, h]
  rfl

/-- C5. First error aborts the run.  The selection stage has yielded the name `name`.
If the open fails, the run consists of the selection stage, the line naming the port,
the open and the fatal message: no write, no read, no report, status 1.  If the open
succeeds and the write fails, the fatal message follows the write at once: no read, no
report, status 1.  If the open and the write succeed, read attempts `1 .. k-1` return
nothing and attempt `k` (`1 ≤ k ≤ 10`) returns an error, the fatal message follows the
read number `k` at once: exactly `k` reads, no report, status 1. -/
theorem C5_first_error_aborts (cfg : Config) (w : World) (t0 : List Event) (name : GoString)
    (hport : choosePort cfg w = (t0, some name)) :
    (∀ err, w.Open name (modeOf cfg) = some err →
      ∃ o, main cfg w = some o ∧
        o.trace = t0 ++ [Event.print (.chosenPort name), Event.portOpen name (modeOf cfg),
          Event.logFatal (.openError name err)] ∧
        o.trace.filter Event.isWrite = [] ∧ reads o.trace = 0 ∧
        o.trace.filter Event.isReport = [] ∧ o.status = 1) ∧
    (w.Open name (modeOf cfg) = none → ∀ err, (w.Write cfg.msg).2 = some err →
      ∃ o, main cfg w = some o ∧
        o.trace = t0 ++ [Event.print (.chosenPort name), Event.portOpen name (modeOf cfg),
          Event.print (.opened name cfg.baud), Event.portWrite cfg.msg,
          Event.logFatal (.writeError err)] ∧
        reads o.trace = 0 ∧ o.trace.filter Event.isReport = [] ∧ o.status = 1) ∧
    (w.Open name (modeOf cfg) = none → (w.Write cfg.msg).2 = none →
      ∀ k err, 1 ≤ k → k ≤ 10 → (∀ j, j + 1 < k → w.Read j = ([], none)) →
        (w.Read (k - 1)).2 = some err →
      ∃ o, main cfg w = some o ∧
        o.trace = t0 ++ opening cfg w name ++ idle (k - 1) ++
          [Event.portRead 100, Event.logFatal (.readError err)] ∧
        reads o.trace = k ∧ o.trace.filter Event.isReport = [] ∧ o.status = 1) := by
  have hsel := (choosePort_some cfg w t0 name hport).2
  have hR := reads_selection t0 hsel
  have hW := filter_selection _ isWrite_selection t0 hsel
  have hP := filter_selection _ isReport_selection t0 hsel
  refine ⟨?_, ?_, ?_⟩
  · intro err ho
    refine ⟨_, main_openFails cfg w t0 name err hport ho, rfl, ?_, ?_, ?_, rfl⟩
    · simp [List.filter_append, hW, Event.isWrite]
    · rw [reads_append, hR]; rfl
    · simp [List.filter_append, hP, Event.isReport]
  · intro ho err hw
    refine ⟨_, main_writeFails cfg w t0 name err hport ho hw, rfl, ?_, ?_, rfl⟩
    · rw [reads_append, hR]; rfl
    · simp [List.filter_append, hP, Event.isReport]
  · intro ho hw k err hk1 hk10 hzero herr
    have hl := readLoop_errorAt w k err hk1 hk10 hzero herr
    have hm := main_loopFatal cfg w t0 _ name hport ho hw hl
    refine ⟨_, hm, by simp, ?_, ?_, rfl⟩
    · simp only [reads_append, hR, reads_opening, reads_idle]
      simp [reads, Event.isRead]
      omega
    · simp only [List.filter_append, hP, filter_report_opening,
        filter_idle Event.isReport rfl rfl]
      simp [Event.isReport]

/-- Witness for C5: `-port=A -msg=ABC`; a world in which the open fails, one in which
the write fails, and one in which the third read fails. -/
theorem C5_first_error_aborts_witness :
    (∃ o, main cfgABC { sampleWorld [] [] writeAll readNothing with
          Open := fun _ _ => some [] } = some o ∧
        o.trace = [] ++ [Event.print (.chosenPort [65]), Event.portOpen [65] (modeOf cfgABC),
          Event.logFatal (.openError [65] [])] ∧
        o.trace.filter Event.isWrite = [] ∧ reads o.trace = 0 ∧
        o.trace.filter Event.isReport = [] ∧ o.status = 1) ∧
    (∃ o, main cfgABC (sampleWorld [] [] (fun _ => (0, some [])) readNothing) = some o ∧
        o.trace = [] ++ [Event.print (.chosenPort [65]), Event.portOpen [65] (modeOf cfgABC),
          Event.print (.opened [65] cfgABC.baud), Event.portWrite cfgABC.msg,
          Event.logFatal (.writeError [])] ∧
        reads o.trace = 0 ∧ o.trace.filter Event.isReport = [] ∧ o.status = 1) ∧
    (∃ o, main cfgABC (sampleWorld [] [] writeAll
          (fun i => if i = 2 then ([], some []) else ([], none))) = some o ∧
        o.trace = [] ++ opening cfgABC (sampleWorld [] [] writeAll
          (fun i => if i = 2 then ([], some []) else ([], none))) [65] ++ idle (3 - 1) ++
          [Event.portRead 100, Event.logFatal (.readError [])] ∧
        reads o.trace = 3 ∧ o.trace.filter Event.isReport = [] ∧ o.status = 1) :=
  ⟨(C5_first_error_aborts cfgABC { sampleWorld [] [] writeAll readNothing with
        Open := fun _ _ => some [] } [] [65] (by decide)).1 [] rfl,
   (C5_first_error_aborts cfgABC (sampleWorld [] [] (fun _ => (0, some [])) readNothing)
        [] [65] (by decide)).2.1 rfl [] rfl,
   (C5_first_error_aborts cfgABC (sampleWorld [] [] writeAll
        (fun i => if i = 2 then ([], some []) else ([], none))) [] [65] (by decide)).2.2
      rfl rfl 3 [] (by decide) (by decide)
      (fun j hj => by
        have : j ≠ 2 := by omega
        simp [sampleWorld, this])
      (by decide)⟩

end UsbSerial
